import Mathlib

/-!
# Verification of the toadb synchronization orchestrator (src/main.py)

Shallow embedding of the pure decision logic of `main.py`: device-serial
resolution, the drift-threshold sync policy, the fixed-offset timezone
mapping, offset-string validation, the device-selection command, and the
boot-cycle scheduler loop.  External effects (subprocess calls, config
file I/O, the wall clock) are passed in explicitly as parameters or
oracle functions; everything else follows the Python source line by line.
-/

namespace Toadb

/-! ## Modelling Python string and integer primitives

These helpers model the Python built-ins used by `main.py`:
`str.strip` (ASCII whitespace), `int(...)` on a string
(whitespace-trimmed, optional sign, decimal digits — see the caveat on
`pyInt` for where the ASCII restriction is sound and where the parse is
abstracted into an oracle instead), and the `+d`-formatted f-string
rendering of an integer (always-signed decimal). -/

def isPySpace (c : Char) : Bool :=
  c == ' ' || c == '\t' || c == '\n' || c == '\r' || c == '\x0b' || c == '\x0c'

/-- Python `str.strip()`: drop whitespace from both ends. -/
def pyStrip (l : List Char) : List Char :=
  ((l.dropWhile isPySpace).reverse.dropWhile isPySpace).reverse

/-- Accumulate decimal digits; any non-digit character aborts the parse. -/
def parseDigitsCore : List Char → Nat → Option Nat
  | [], acc => some acc
  | c :: rest, acc =>
      if c.isDigit then parseDigitsCore rest (acc * 10 + (c.toNat - 48)) else none

/-- A nonempty all-digit string parsed as a natural number. -/
def parseDigits : List Char → Option Nat
  | [] => none
  | c :: rest => parseDigitsCore (c :: rest) 0

/-- Python `int(s)` restricted to ASCII inputs: trim whitespace,
optional sign, ASCII decimal digits.  The full builtin also accepts
Unicode decimal digits, underscore separators between digits and
Unicode whitespace.  This restriction is used only for the
at-most-2-character slices taken in `etc_gmt_from_offset`, where it can
at most turn a Python-parsed non-ASCII value into a failed parse —
which never falsifies the statements proved about that function.  Where
the source applies `int()` to an unbounded user-supplied string
(`cmd_device`), the parse is instead an explicit oracle quantified
over all behaviours, this function being one instance. -/
def pyInt (l : List Char) : Option Int :=
  match pyStrip l with
  | '+' :: rest => (parseDigits rest).map (fun v => (v : Int))
  | '-' :: rest => (parseDigits rest).map (fun v => -(v : Int))
  | t => (parseDigits t).map (fun v => (v : Int))

/-- The decimal digit character for a single digit (mirrors the rendering
used by Python's decimal formatting; arguments are always `< 10`). -/
def digitOf : Nat → Char
  | 0 => '0'
  | 1 => '1'
  | 2 => '2'
  | 3 => '3'
  | 4 => '4'
  | 5 => '5'
  | 6 => '6'
  | 7 => '7'
  | 8 => '8'
  | _ => '9'

/-- Fuel-driven decimal rendering, least-significant digit first into the
accumulator (the fuel `n + 1` always suffices). -/
def natDigitsCore : Nat → Nat → List Char → List Char
  | 0, _, acc => acc
  | fuel + 1, n, acc =>
      let acc2 := digitOf (n % 10) :: acc
      if n < 10 then acc2 else natDigitsCore fuel (n / 10) acc2

/-- Decimal rendering of a natural number. -/
def natDigits (n : Nat) : List Char :=
  natDigitsCore (n + 1) n []

/-- Python `f-string` rendering with the always-signed `+d` format. -/
def pyPlusD (n : Int) : List Char :=
  if 0 ≤ n then '+' :: natDigits n.toNat else '-' :: natDigits n.natAbs

/-- Python `String.replace` specialised to replacing the two-character
pattern plus-minus by a single minus (left-to-right, non-overlapping). -/
def replacePlusMinus : List Char → List Char
  | [] => []
  | '+' :: '-' :: rest => '-' :: replacePlusMinus rest
  | c :: rest => c :: replacePlusMinus rest

/-! ## etc_gmt_from_offset (main.py lines 307-321)

Maps full-hour `+HHMM`/`-HHMM` offsets to `Etc/GMT` zone names with the
POSIX sign inversion.  Any exception raised inside the Python `try`
block (indexing an empty string, a failed `int` parse) yields `None`,
modelled by the `none` branches. -/

def etc_gmt_from_offset (hhmm : String) : Option String :=
  match hhmm.data with
  | [] => none
  | c0 :: rest =>
    let sign : Int := if c0 = '+' then 1 else -1
    match pyInt (rest.take 2) with
    | none => none
    | some hours =>
      match pyInt ((rest.drop 2).take 2) with
      | none => none
      | some minutes =>
        if minutes ≠ 0 then none
        else
          some (String.mk (replacePlusMinus ("Etc/GMT".data ++ pyPlusD (-sign * hours))))

/-! ## Device registry (main.py lines 112-159)

`adb devices` output is parsed into `(serial, state)` pairs; serial
resolution in `pick_serial` consults a preferred serial, the persisted
selection and the listing, in order.  The config load and the bridge
listing are lifted into explicit `saved` and `devices` parameters. -/

/-- Python truthiness of an optional string: `None` and `""` are falsy. -/
def truthy : Option String → Bool
  | none => false
  | some s => s != ""

/-- `first_online_device`: the serial of the first entry whose state is
exactly `"device"`. -/
def first_online_device : List (String × String) → Option String
  | [] => none
  | (serial, state) :: rest =>
      if state = "device" then some serial else first_online_device rest

/-- The listed serials, in listing order (`[s for s, _ in devices]`). -/
def serials (devices : List (String × String)) : List String :=
  devices.map Prod.fst

/-- The `saved and saved in serials` test of `pick_serial`. -/
def savedListed (saved : Option String) (devices : List (String × String)) : Bool :=
  match saved with
  | none => false
  | some s => (s != "") && (serials devices).contains s

/-- `pick_serial` with the config read and device listing made explicit:
preferred serial (returned unchecked when truthy), then the saved
selection when currently listed, then the first online device, then the
first listed serial, else nothing. -/
def pick_serial (preferred saved : Option String)
    (devices : List (String × String)) : Option String :=
  if truthy preferred then preferred
  else if savedListed saved devices then saved
  else if truthy (first_online_device devices) then first_online_device devices
  else (serials devices).head?

/-- Serial resolution as performed by one daemon-loop iteration
(main.py lines 620-622): `run_boot_cycle` reads `selected_serial` from
the config and passes it to `pick_serial` as the `preferred` argument,
and `pick_serial` reloads the same config for its own `saved` check. -/
def daemon_resolve (savedSelection : Option String)
    (devices : List (String × String)) : Option String :=
  pick_serial savedSelection savedSelection devices

/-! ## phone_offset_hhmm (main.py lines 196-205)

The single `date +%z` probe: the stdout is stripped, carriage returns
removed, and a result is produced when the exit code is zero, the
string has at least five characters and starts with a sign; the result
is the first five characters. -/

/-- `(proc.stdout or "").strip().replace("\r", "")`. -/
def strippedOut (stdout : List Char) : List Char :=
  (pyStrip stdout).filter (fun c => c != '\r')

/-- The `s[0] in "+-"` test, guarded against the empty string. -/
def headIsSign : List Char → Bool
  | [] => false
  | c :: _ => c == '+' || c == '-'

def phone_offset_hhmm (returncode : Int) (stdout : List Char) : Option (List Char) :=
  let s := strippedOut stdout
  if returncode == 0 && decide (5 ≤ s.length) && headIsSign s then some (s.take 5)
  else none

/-! ## cmd_list and cmd_device (main.py lines 510-546)

The device-selection command.  The listing is an explicit parameter;
the result is the exit code paired with the config write performed
(`some serial` when `selected_serial` was persisted, `none` when the
config file was left untouched).  The `int(args[0])` call is applied to
an unbounded user-supplied string, on which Python's builtin accepts
arbitrary Unicode decimal digits, underscore separators and Unicode
whitespace; like the other library primitives it is therefore supplied
as an oracle `intParse` (with `none` standing for the `ValueError`
branch caught by the source), and the theorems below quantify over
every such oracle — in particular the real `int()`. -/

def cmd_list (devices : List (String × String)) : Nat :=
  if devices = [] then 1 else 0

def cmd_device (intParse : String → Option Int) (args : List String)
    (devices : List (String × String)) : Nat × Option String :=
  if devices = [] then (1, none)
  else
    match args with
    | [] => (cmd_list devices, none)
    | a :: _ =>
      match intParse a with
      | none => (1, none)
      | some idx =>
        if idx < 1 ∨ (devices.length : Int) < idx then (1, none)
        else
          -- the range check above makes the index valid, so the default
          -- entry of getD is never selected
          (0, some ((devices.getD (idx.toNat - 1) ("", "")).1))

/-! ## sync_once (main.py lines 461-507)

The per-attempt sync policy.  The phone probes are lifted into a
`PhoneReads` record; the platform applier (the Windows and Linux
branches have identical control structure around their respective
appliers) is an oracle transforming an abstract host state `σ`, so that
"the host was not mutated" is expressible as equality of states.  The
elevation call is modelled as already-elevated (it either returns,
re-execs, or exits the process before any applier runs). -/

/-- Data read from the phone at the start of a sync attempt. -/
structure PhoneReads where
  epoch : Option Int
  offset : Option (List Char)
  tzId : Option String

/-- A platform applier: timezone and epoch setters over host state `σ`,
each returning its success boolean and the new host state. -/
structure Applier (σ : Type) where
  setTimezone : Option String → Option (List Char) → σ → Bool × σ
  setTimeEpoch : Int → σ → Bool × σ

/-- The four logged outcome classifications of `sync_once`. -/
inductive Outcome
  | bothOk
  | tzOnly
  | timeOnly
  | neither
deriving DecidableEq, Repr

/-- The `if/elif/elif/else` classification at the end of `sync_once`. -/
def classify (okTz okTime : Bool) : Outcome :=
  if okTz && okTime then .bothOk
  else if okTz && !okTime then .tzOnly
  else if !okTz && okTime then .timeOnly
  else .neither

/-- What one call of `sync_once` did: its boolean result, which of the
two mutating steps were attempted, and the outcome classification it
logged (`none` when the early epoch-read failure skipped it). -/
structure SyncReport where
  ok : Bool
  tzAttempted : Bool
  timeAttempted : Bool
  outcome : Option Outcome
deriving DecidableEq, Repr

def sync_once {σ : Type} (A : Applier σ) (phone : PhoneReads)
    (hostEpoch driftThreshold : Int) (s : σ) : SyncReport × σ :=
  match phone.epoch with
  | none => (⟨false, false, false, none⟩, s)
  | some phoneTs =>
    let drift := phoneTs - hostEpoch
    let tzCall := A.setTimezone phone.tzId phone.offset s
    let okTz := tzCall.1
    if driftThreshold ≤ |drift| then
      let timeCall := A.setTimeEpoch phoneTs tzCall.2
      (⟨okTz && timeCall.1, true, true, some (classify okTz timeCall.1)⟩, timeCall.2)
    else
      (⟨okTz && true, true, false, some (classify okTz true)⟩, tzCall.2)

/-- A constant-result applier over a `Nat` host state; each call bumps
the state so that "no mutating call happened" is visible. -/
def constApplier (tzOk timeOk : Bool) : Applier Nat :=
  ⟨fun _ _ s => (tzOk, s + 1), fun _ s => (timeOk, s + 10)⟩

/-! ## run_boot_cycle daemon loop (main.py lines 577-666)

The scheduler state machine, for the daemon mode (`oneshot=False`).
Iterations are assumed to take negligible time, so the monotonic clock
advances only across `time.sleep` calls; `elapsed` is the monotonic
time since `start_time` and `sleeps` counts the sleep calls performed.
The device listing and the sync result are oracles indexed by the
iteration number; serial resolution, `wait_for_authorized` (assumed to
return, a device being listed) and logging do not affect scheduling and
are not represented. -/

structure DaemonEnv where
  listing : Nat → List (String × String)
  syncOk : Nat → Bool

structure SchedState where
  elapsed : Nat
  hadSuccess : Bool
  sleeps : Nat
  iter : Nat
deriving DecidableEq, Repr

inductive RunResult
  | exited (code : Nat) (final : SchedState)
  | fuelOut (st : SchedState)
deriving DecidableEq, Repr

def run_boot_cycle (env : DaemonEnv)
    (startupWindow discoveryInterval refreshInterval : Nat) :
    Nat → SchedState → RunResult
  | 0, st => .fuelOut st
  | fuel + 1, st =>
    let devices := env.listing st.iter
    if devices.isEmpty then
      if !st.hadSuccess && decide (startupWindow ≤ st.elapsed) then .exited 0 st
      else
        run_boot_cycle env startupWindow discoveryInterval refreshInterval fuel
          ⟨st.elapsed + discoveryInterval, st.hadSuccess, st.sleeps + 1, st.iter + 1⟩
    else
      let hs := st.hadSuccess || env.syncOk st.iter
      if hs then
        run_boot_cycle env startupWindow discoveryInterval refreshInterval fuel
          ⟨st.elapsed + refreshInterval, hs, st.sleeps + 1, st.iter + 1⟩
      else if startupWindow ≤ st.elapsed then .exited 0 ⟨st.elapsed, hs, st.sleeps, st.iter⟩
      else
        run_boot_cycle env startupWindow discoveryInterval refreshInterval fuel
          ⟨st.elapsed + discoveryInterval, hs, st.sleeps + 1, st.iter + 1⟩

/-- A device registry that never yields any device. -/
def emptyRegistry : DaemonEnv := ⟨fun _ => [], fun _ => false⟩

/-! ## Helper lemmas -/

/-- `classify` picks exactly the classification matching the pair. -/
lemma classify_eq (a b : Bool) :
    classify a b = (match a, b with
      | true, true => Outcome.bothOk
      | true, false => Outcome.tzOnly
      | false, true => Outcome.timeOnly
      | false, false => Outcome.neither) := by
  cases a <;> cases b <;> rfl

lemma emptyRegistry_listing (n : Nat) : emptyRegistry.listing n = [] := rfl

/-- With a registry that never lists a device, the success flag is
carried through unchanged to the exit state: the `Refreshing` branch is
never entered. -/
lemma emptyRegistry_hadSuccess_invariant (w d r : Nat) :
    ∀ (fuel : Nat) (st : SchedState) (c : Nat) (fin : SchedState),
      run_boot_cycle emptyRegistry w d r fuel st = .exited c fin →
      fin.hadSuccess = st.hadSuccess := by
  intro fuel
  induction fuel with
  | zero => intro st c fin h; simp [run_boot_cycle] at h
  | succ n ih =>
    intro st c fin h
    simp only [run_boot_cycle, emptyRegistry_listing, List.isEmpty_nil, if_true] at h
    by_cases hx : !st.hadSuccess && decide (w ≤ st.elapsed)
    · rw [if_pos hx] at h
      cases h
      rfl
    · rw [if_neg hx] at h
      exact ih ⟨st.elapsed + d, st.hadSuccess, st.sleeps + 1, st.iter + 1⟩ c fin h

/-! ## Claim theorems -/

/-- C1: in the daemon loop a saved device selection is NOT re-checked
against the current listing: `run_boot_cycle` passes the persisted
serial to `pick_serial` as its `preferred` argument, which is returned
unchecked, so a saved serial absent from the listing is still returned
instead of falling back to the first authorized device.  At the failing
input (saved serial `"SAVED"`, listing containing only the authorized
device `"OTHER"`), resolution yields `"SAVED"` although it is unlisted,
while the listed-check path of `pick_serial` (reached only with no
preferred serial) would yield `"OTHER"`. -/
theorem daemon_saved_serial_unchecked :
    daemon_resolve (some "SAVED") [("OTHER", "device")] = some "SAVED"
    ∧ "SAVED" ∉ serials [("OTHER", "device")]
    ∧ first_online_device [("OTHER", "device")] = some "OTHER"
    ∧ pick_serial none (some "SAVED") [("OTHER", "device")] = some "OTHER" := by
  refine ⟨by decide, by decide, by decide, by decide⟩

/-- C2: for every drift value and threshold, `sync_once` attempts the
host time change iff `|drift| ≥ threshold`, with the boundary
`|drift| = threshold` inclusive; the timezone change is attempted on
every sync attempt regardless of drift; and when the time change is
skipped the attempt succeeds iff the timezone step did (the skipped
time step is vacuously successful). -/
theorem sync_once_drift_threshold {σ : Type} (A : Applier σ) (phone : PhoneReads)
    (hostEpoch driftThreshold : Int) (s : σ) (p : Int) (hp : phone.epoch = some p) :
    ((sync_once A phone hostEpoch driftThreshold s).1.timeAttempted = true ↔
       driftThreshold ≤ |p - hostEpoch|)
    ∧ (|p - hostEpoch| = driftThreshold →
       (sync_once A phone hostEpoch driftThreshold s).1.timeAttempted = true)
    ∧ (sync_once A phone hostEpoch driftThreshold s).1.tzAttempted = true
    ∧ (|p - hostEpoch| < driftThreshold →
       (sync_once A phone hostEpoch driftThreshold s).1.ok =
         (A.setTimezone phone.tzId phone.offset s).1) := by
  unfold sync_once
  rw [hp]
  by_cases h : driftThreshold ≤ |p - hostEpoch|
  · simp [h]
    try omega
  · simp [h]
    try omega

/-- C2 witness: at phone epoch 5, host epoch 4 and threshold 1 the
drift is exactly the threshold, so the time change is attempted. -/
theorem sync_once_drift_threshold_witness :
    (((sync_once (constApplier false true) ⟨some 5, none, none⟩ 4 1 0).1.timeAttempted = true ↔
       (1 : Int) ≤ |(5 : Int) - 4|)
    ∧ (|(5 : Int) - 4| = 1 →
       (sync_once (constApplier false true) ⟨some 5, none, none⟩ 4 1 0).1.timeAttempted = true)
    ∧ (sync_once (constApplier false true) ⟨some 5, none, none⟩ 4 1 0).1.tzAttempted = true
    ∧ (|(5 : Int) - 4| < 1 →
       (sync_once (constApplier false true) ⟨some 5, none, none⟩ 4 1 0).1.ok =
         ((constApplier false true).setTimezone none none 0).1)) :=
  sync_once_drift_threshold (constApplier false true) ⟨some 5, none, none⟩ 4 1 0 5 rfl

/-- C3: `sync_once` returns the conjunction of the timezone-step and
time-step booleans (the skipped time step counting as `true`), the two
steps are independent — the timezone step is always attempted and
whether the time step is attempted depends only on the drift, never on
the timezone outcome — and the logged classification is exactly the one
of the four matching the pair of outcomes. -/
theorem sync_once_outcome_and {σ : Type} (A : Applier σ) (phone : PhoneReads)
    (hostEpoch driftThreshold : Int) (s : σ) (p : Int) (hp : phone.epoch = some p) :
    (sync_once A phone hostEpoch driftThreshold s).1.ok =
      ((A.setTimezone phone.tzId phone.offset s).1 &&
        (if driftThreshold ≤ |p - hostEpoch| then
          (A.setTimeEpoch p (A.setTimezone phone.tzId phone.offset s).2).1 else true))
    ∧ (sync_once A phone hostEpoch driftThreshold s).1.outcome =
      some (match (A.setTimezone phone.tzId phone.offset s).1,
              (if driftThreshold ≤ |p - hostEpoch| then
                (A.setTimeEpoch p (A.setTimezone phone.tzId phone.offset s).2).1 else true) with
            | true, true => Outcome.bothOk
            | true, false => Outcome.tzOnly
            | false, true => Outcome.timeOnly
            | false, false => Outcome.neither)
    ∧ (sync_once A phone hostEpoch driftThreshold s).1.tzAttempted = true
    ∧ (sync_once A phone hostEpoch driftThreshold s).1.timeAttempted =
        decide (driftThreshold ≤ |p - hostEpoch|) := by
  unfold sync_once
  rw [hp]
  by_cases h : driftThreshold ≤ |p - hostEpoch|
  · simp [h, classify_eq]
  · simp [h, classify_eq]

/-- C3 witness: a timezone-failing, time-succeeding applier at drift 7
and threshold 1 yields the time-only classification and overall
failure. -/
theorem sync_once_outcome_and_witness :
    ((sync_once (constApplier false true) ⟨some 107, none, none⟩ 100 1 0).1.ok =
      (((constApplier false true).setTimezone none none 0).1 &&
        (if (1 : Int) ≤ |(107 : Int) - 100| then
          ((constApplier false true).setTimeEpoch 107
            ((constApplier false true).setTimezone none none 0).2).1 else true))
    ∧ (sync_once (constApplier false true) ⟨some 107, none, none⟩ 100 1 0).1.outcome =
      some (match ((constApplier false true).setTimezone none none 0).1,
              (if (1 : Int) ≤ |(107 : Int) - 100| then
                ((constApplier false true).setTimeEpoch 107
                  ((constApplier false true).setTimezone none none 0).2).1 else true) with
            | true, true => Outcome.bothOk
            | true, false => Outcome.tzOnly
            | false, true => Outcome.timeOnly
            | false, false => Outcome.neither)
    ∧ (sync_once (constApplier false true) ⟨some 107, none, none⟩ 100 1 0).1.tzAttempted = true
    ∧ (sync_once (constApplier false true) ⟨some 107, none, none⟩ 100 1 0).1.timeAttempted =
        decide ((1 : Int) ≤ |(107 : Int) - 100|)) :=
  sync_once_outcome_and (constApplier false true) ⟨some 107, none, none⟩ 100 1 0 107 rfl

/-- C8: when the device epoch read yields nothing, `sync_once` fails
immediately: the result is `false`, neither the timezone step nor the
time step is attempted, no classification is logged, and the host state
is returned unchanged. -/
theorem sync_once_epoch_missing {σ : Type} (A : Applier σ) (phone : PhoneReads)
    (hostEpoch driftThreshold : Int) (s : σ) (hp : phone.epoch = none) :
    sync_once A phone hostEpoch driftThreshold s = (⟨false, false, false, none⟩, s) := by
  unfold sync_once
  rw [hp]

/-- C8 witness: a concrete failed epoch read leaves the host state 5
untouched and reports a failed, attempt-free sync. -/
theorem sync_once_epoch_missing_witness :
    sync_once (constApplier true true) ⟨none, none, none⟩ 100 1 5 =
      (⟨false, false, false, none⟩, 5) :=
  sync_once_epoch_missing (constApplier true true) ⟨none, none, none⟩ 100 1 5 rfl

/-- C4: with a registry that never yields a device, startup window 10
and discovery interval 5 (iterations taking negligible time), the
daemon loop performs exactly 2 discovery sleeps and then exits with
status 0 at the 10-second mark with the success flag still unset; and
for such a registry the success flag observed at exit always equals the
initial one, so the `Refreshing` state is never entered. -/
theorem run_boot_cycle_give_up :
    run_boot_cycle emptyRegistry 10 5 600 10 ⟨0, false, 0, 0⟩ =
      RunResult.exited 0 ⟨10, false, 2, 2⟩
    ∧ (∀ (w d r fuel : Nat) (st : SchedState) (c : Nat) (fin : SchedState),
        run_boot_cycle emptyRegistry w d r fuel st = .exited c fin →
        fin.hadSuccess = st.hadSuccess) :=
  ⟨by decide, fun w d r fuel st c fin h =>
    emptyRegistry_hadSuccess_invariant w d r fuel st c fin h⟩

/-- C4 witness: the invariant applied to the concrete 10-second run. -/
theorem run_boot_cycle_give_up_witness :
    (⟨10, false, 2, 2⟩ : SchedState).hadSuccess = (⟨0, false, 0, 0⟩ : SchedState).hadSuccess :=
  run_boot_cycle_give_up.2 10 5 600 10 ⟨0, false, 0, 0⟩ 0 ⟨10, false, 2, 2⟩ (by decide)

/-- C6 counterexample: a stripped probe output of 6 characters does NOT
yield `none` — `phone_offset_hhmm` only requires at least 5 characters
and returns the first five of them. -/
theorem phone_offset_len6_counterexample :
    phone_offset_hhmm 0 "+08001".data = some "+0800".data
    ∧ (strippedOut "+08001".data).length = 6 := by
  refine ⟨by decide, by decide⟩

/-- C6 amended: `phone_offset_hhmm` returns a result exactly when the
exit code is 0 and the stripped, CR-free output starts with a sign and
has at least 5 characters; any shorter output yields `none`, and the
result is the first five characters of that output (hence of length 5
and itself sign-initial). -/
theorem phone_offset_spec (rc : Int) (stdout : List Char) :
    ((strippedOut stdout).length < 5 → phone_offset_hhmm rc stdout = none)
    ∧ (∀ r, phone_offset_hhmm rc stdout = some r →
        rc = 0 ∧ 5 ≤ (strippedOut stdout).length
        ∧ headIsSign (strippedOut stdout) = true
        ∧ r = (strippedOut stdout).take 5 ∧ r.length = 5 ∧ headIsSign r = true) := by
  constructor
  · intro hlen
    have h5 : ¬ (5 ≤ (strippedOut stdout).length) := by omega
    simp [phone_offset_hhmm, h5]
  · intro r hr
    unfold phone_offset_hhmm at hr
    dsimp only at hr
    split at hr
    · rename_i hcond
      simp only [Bool.and_eq_true, beq_iff_eq, decide_eq_true_eq] at hcond
      obtain ⟨⟨hrc, hlen⟩, hsign⟩ := hcond
      have hrtake : r = (strippedOut stdout).take 5 := by
        exact (Option.some.injEq _ _ ▸ hr).symm
      refine ⟨hrc, hlen, hsign, hrtake, ?_, ?_⟩
      · rw [hrtake, List.length_take]
        omega
      · rw [hrtake]
        cases hs : strippedOut stdout with
        | nil => rw [hs] at hsign; simp [headIsSign] at hsign
        | cons c cs =>
          rw [hs] at hsign
          simpa [List.take, headIsSign] using hsign
    · exact absurd hr (by simp)

/-- C6 witness: a 3-character stripped output yields no result. -/
theorem phone_offset_spec_witness :
    phone_offset_hhmm 0 "+08".data = none :=
  (phone_offset_spec 0 "+08".data).1 (by decide)

/-- `first_online_device` returns the serial of the first listing entry
whose state is exactly `"device"`. -/
lemma first_online_eq_find (devices : List (String × String)) :
    first_online_device devices =
      (devices.find? (fun p => p.2 == "device")).map Prod.fst := by
  induction devices with
  | nil => rfl
  | cons d rest ih =>
    obtain ⟨sr, st⟩ := d
    by_cases h : st = "device"
    · simp [first_online_device, List.find?_cons, h]
    · simp [first_online_device, List.find?_cons, h, ih]

/-- C7: with no (truthy) preferred serial and no matching saved
selection, `pick_serial` returns the serial of the first entry in state
`"device"` when one exists — in preference to earlier entries of other
states — and otherwise the first listed serial if the listing is
non-empty and `none` if it is empty.  (Serials produced by
`parse_adb_devices` are whitespace-split tokens, hence nonempty.) -/
theorem pick_serial_fallback (devices : List (String × String))
    (preferred saved : Option String)
    (h1 : truthy preferred = false)
    (h2 : savedListed saved devices = false)
    (h3 : ∀ p ∈ devices, p.1 ≠ "") :
    pick_serial preferred saved devices =
      match devices.find? (fun p => p.2 == "device") with
      | some p => some p.1
      | none => (serials devices).head? := by
  unfold pick_serial
  rw [h1, h2, first_online_eq_find]
  cases hf : devices.find? (fun p => p.2 == "device") with
  | none => simp [truthy]
  | some p =>
    have hp : p ∈ devices := List.mem_of_find?_eq_some hf
    have hne : p.1 ≠ "" := h3 p hp
    simp [truthy, hne]

/-- C7 witness: an unmatched saved serial is ignored and the first
authorized device wins over an earlier offline entry. -/
theorem pick_serial_fallback_witness :
    pick_serial none (some "z") [("a", "offline"), ("b", "device")] =
      match [("a", "offline"), ("b", "device")].find? (fun p => p.2 == "device") with
      | some p => some p.1
      | none => (serials [("a", "offline"), ("b", "device")]).head? :=
  pick_serial_fallback [("a", "offline"), ("b", "device")] none (some "z")
    rfl (by decide) (by decide)

/-- C5: the fixed-offset mapping inverts the sign — `"+0800"` maps to
`Etc/GMT-8` and `"-0300"` to `Etc/GMT+3` — and any offset string whose
minutes field parses to a nonzero value maps to `none`. -/
theorem etc_gmt_sign_inversion :
    etc_gmt_from_offset "+0800" = some "Etc/GMT-8"
    ∧ etc_gmt_from_offset "-0300" = some "Etc/GMT+3"
    ∧ (∀ (s : String) (m : Int),
        pyInt ((s.data.drop 3).take 2) = some m → m ≠ 0 →
        etc_gmt_from_offset s = none) := by
  refine ⟨by decide, by decide, ?_⟩
  intro s m hm hm0
  unfold etc_gmt_from_offset
  cases hd : s.data with
  | nil => rfl
  | cons c0 rest =>
    rw [hd] at hm
    dsimp only
    cases hh : pyInt (rest.take 2) with
    | none => rfl
    | some hours =>
      dsimp only
      have hm2 : pyInt ((rest.drop 2).take 2) = some m := hm
      rw [hm2]
      dsimp only
      rw [if_pos hm0]

/-- C5 witness: half-hour offsets are rejected. -/
theorem etc_gmt_sign_inversion_witness :
    etc_gmt_from_offset "+0830" = none :=
  etc_gmt_sign_inversion.2.2 "+0830" 30 (by decide) (by decide)

/-- C9: for every behaviour of the `int()` parse of the index argument
(`none` modelling the `ValueError` branch), if the argument does not
parse as an integer or parses outside `1..len(devices)`, the command
exits with code 1 and the configuration is not written; conversely the
configuration is written only for an argument parsing to a valid
in-range index, in which case the exit code is 0 and the serial written
is the one at that 1-based index. -/
theorem cmd_device_validation (intParse : String → Option Int)
    (args : List String) (devices : List (String × String)) :
    (∀ a, args.head? = some a →
       (intParse a = none ∨
         ∃ i, intParse a = some i ∧ (i < 1 ∨ (devices.length : Int) < i)) →
       cmd_device intParse args devices = (1, none))
    ∧ (∀ s, (cmd_device intParse args devices).2 = some s →
       ∃ a rest i, args = a :: rest ∧ intParse a = some i
         ∧ 1 ≤ i ∧ i ≤ (devices.length : Int)
         ∧ (cmd_device intParse args devices).1 = 0
         ∧ s = (devices.getD (i.toNat - 1) ("", "")).1) := by
  constructor
  · intro a ha hbad
    cases args with
    | nil => simp at ha
    | cons a0 rest =>
      have hrfl : a0 = a := by simpa using ha
      subst hrfl
      unfold cmd_device
      by_cases hd : devices = []
      · simp [hd]
      · rw [if_neg hd]
        dsimp only
        rcases hbad with hnone | ⟨i, hi, hrange⟩
        · rw [hnone]
        · rw [hi]
          dsimp only
          rw [if_pos hrange]
  · intro s hs
    cases args with
    | nil =>
      unfold cmd_device at hs
      by_cases hd : devices = []
      · rw [if_pos hd] at hs
        simp at hs
      · rw [if_neg hd] at hs
        simp at hs
    | cons a rest =>
      unfold cmd_device at hs
      by_cases hd : devices = []
      · rw [if_pos hd] at hs
        simp at hs
      · rw [if_neg hd] at hs
        dsimp only at hs
        cases hp : intParse a with
        | none => rw [hp] at hs; simp at hs
        | some i =>
          rw [hp] at hs
          dsimp only at hs
          by_cases hr : i < 1 ∨ (devices.length : Int) < i
          · rw [if_pos hr] at hs
            simp at hs
          · rw [if_neg hr] at hs
            push_neg at hr
            have hval : cmd_device intParse (a :: rest) devices =
                (0, some ((devices.getD (i.toNat - 1) ("", "")).1)) := by
              unfold cmd_device
              rw [if_neg hd]
              dsimp only
              rw [hp]
              dsimp only
              rw [if_neg (by push_neg; exact hr)]
            refine ⟨a, rest, i, rfl, hp, hr.1, hr.2, ?_, ?_⟩
            · rw [hval]
            · simpa using hs.symm

/-- C9 witness: under the ASCII parse instance, a non-numeric index
exits with code 1 and leaves the configuration unwritten. -/
theorem cmd_device_validation_witness :
    cmd_device (fun s => pyInt s.data) ["abc"] [("s", "device")] = (1, none) :=
  (cmd_device_validation (fun s => pyInt s.data) ["abc"] [("s", "device")]).1 "abc" rfl
    (Or.inl (by decide))

/-- Digit characters are never a sign character. -/
lemma digitOf_ne (d : Nat) : digitOf d ≠ '+' ∧ digitOf d ≠ '-' := by
  match d with
  | 0 => exact ⟨by decide, by decide⟩
  | 1 => exact ⟨by decide, by decide⟩
  | 2 => exact ⟨by decide, by decide⟩
  | 3 => exact ⟨by decide, by decide⟩
  | 4 => exact ⟨by decide, by decide⟩
  | 5 => exact ⟨by decide, by decide⟩
  | 6 => exact ⟨by decide, by decide⟩
  | 7 => exact ⟨by decide, by decide⟩
  | 8 => exact ⟨by decide, by decide⟩
  | n + 9 =>
    have h9 : digitOf (n + 9) = '9' := rfl
    rw [h9]
    exact ⟨by decide, by decide⟩

/-- Every character produced by the decimal renderer comes from the
accumulator or is a digit character. -/
lemma mem_natDigitsCore (fuel : Nat) :
    ∀ (n : Nat) (acc : List Char) (c : Char), c ∈ natDigitsCore fuel n acc →
      c ∈ acc ∨ ∃ d, c = digitOf d := by
  induction fuel with
  | zero => intro n acc c h; exact Or.inl h
  | succ m ih =>
    intro n acc c h
    simp only [natDigitsCore] at h
    split at h
    · rcases List.mem_cons.mp h with h1 | h1
      · exact Or.inr ⟨n % 10, h1⟩
      · exact Or.inl h1
    · rcases ih (n / 10) (digitOf (n % 10) :: acc) c h with h1 | h1
      · rcases List.mem_cons.mp h1 with h2 | h2
        · exact Or.inr ⟨n % 10, h2⟩
        · exact Or.inl h2
      · exact Or.inr h1

/-- The decimal rendering of a natural number contains no sign. -/
lemma mem_natDigits_ne_sign (n : Nat) (c : Char) (h : c ∈ natDigits n) :
    c ≠ '+' ∧ c ≠ '-' := by
  rcases mem_natDigitsCore (n + 1) n [] c h with h0 | ⟨d, rfl⟩
  · simp at h0
  · exact digitOf_ne d

/-- One step of `replacePlusMinus` when no replacement fires at the
head. -/
lemma replacePlusMinus_cons (c : Char) (cs : List Char)
    (h : c ≠ '+' ∨ cs.head? ≠ some '-') :
    replacePlusMinus (c :: cs) = c :: replacePlusMinus cs := by
  rw [replacePlusMinus.eq_def]
  split <;> simp_all

/-- `replacePlusMinus` leaves a plus-free string unchanged. -/
lemma replacePlusMinus_no_plus (l : List Char) (h : ∀ c ∈ l, c ≠ '+') :
    replacePlusMinus l = l := by
  induction l with
  | nil => rfl
  | cons c cs ih =>
    rw [replacePlusMinus_cons c cs (Or.inl (h c (List.mem_cons_self c cs)))]
    rw [ih (fun x hx => h x (List.mem_cons_of_mem _ hx))]

/-- `replacePlusMinus` leaves a minus-free string unchanged. -/
lemma replacePlusMinus_no_minus (l : List Char) (h : ∀ c ∈ l, c ≠ '-') :
    replacePlusMinus l = l := by
  induction l with
  | nil => rfl
  | cons c cs ih =>
    have hh : c ≠ '+' ∨ cs.head? ≠ some '-' := by
      right
      cases cs with
      | nil => simp
      | cons c2 r =>
        simp only [List.head?_cons, ne_eq, Option.some.injEq]
        exact h c2 (List.mem_cons_of_mem _ (List.mem_cons_self c2 r))
    rw [replacePlusMinus_cons c cs hh]
    rw [ih (fun x hx => h x (List.mem_cons_of_mem _ hx))]

/-- The rendered zone name never contains the plus-minus pattern, so
the trailing `replace` of `etc_gmt_from_offset` is the identity. -/
lemma replacePlusMinus_etc_gmt (n : Int) :
    replacePlusMinus ("Etc/GMT".data ++ pyPlusD n) = "Etc/GMT".data ++ pyPlusD n := by
  have hpre : "Etc/GMT".data = ['E', 't', 'c', '/', 'G', 'M', 'T'] := rfl
  by_cases hn : 0 ≤ n
  · apply replacePlusMinus_no_minus
    intro c hc
    rcases List.mem_append.mp hc with h1 | h2
    · rw [hpre] at h1
      fin_cases h1 <;> decide
    · simp only [pyPlusD, if_pos hn] at h2
      rcases List.mem_cons.mp h2 with rfl | h3
      · decide
      · exact (mem_natDigits_ne_sign _ _ h3).2
  · apply replacePlusMinus_no_plus
    intro c hc
    rcases List.mem_append.mp hc with h1 | h2
    · rw [hpre] at h1
      fin_cases h1 <;> decide
    · simp only [pyPlusD, if_neg hn] at h2
      rcases List.mem_cons.mp h2 with rfl | h3
      · decide
      · exact (mem_natDigits_ne_sign _ _ h3).1

/-- C10: `etc_gmt_from_offset` is total on all strings — every
exception path of the source yields `None`, modelled by `none` — and
any non-`none` result is exactly the literal `Etc/GMT` followed by a
signed decimal integer; no partially formed identifier is ever
produced. -/
theorem etc_gmt_total_shape (s : String) :
    etc_gmt_from_offset s = none ∨
      ∃ n : Int, etc_gmt_from_offset s = some (String.mk ("Etc/GMT".data ++ pyPlusD n)) := by
  unfold etc_gmt_from_offset
  cases hd : s.data with
  | nil => exact Or.inl rfl
  | cons c0 rest =>
    dsimp only
    cases hh : pyInt (rest.take 2) with
    | none => exact Or.inl rfl
    | some hours =>
      dsimp only
      cases hm : pyInt ((rest.drop 2).take 2) with
      | none => exact Or.inl rfl
      | some minutes =>
        dsimp only
        by_cases h0 : minutes ≠ 0
        · rw [if_pos h0]
          exact Or.inl rfl
        · rw [if_neg h0]
          refine Or.inr ⟨-(if c0 = '+' then (1 : Int) else -1) * hours, ?_⟩
          rw [replacePlusMinus_etc_gmt]

end Toadb
